import Mathlib

/-!
Shallow embedding of the NanikanoTool pipeline
(src/get_url/lambda_function.py and src/save_img/lambda_function.py).

Pure Python code (URL-sequence generation, the jpg/naver link filter,
storage-key construction, retry guard, branch structure of the control
functions) is translated into executable Lean definitions.  External
collaborators (HTTP fetch, HTML link extraction, SSM parameter lookup,
DynamoDB raw scan, S3 upload) are passed in as oracle functions, and the
side effects a handler performs (table puts, SQS sends, SNS publishes,
S3 uploads) are reified as values in an effect list.  Python exceptions
are modelled with Except: an uncaught exception aborts the computation
and no effect list is produced.
-/

set_option maxRecDepth 16384

/-- Boolean prefix test on character lists (used to model Python's
substring operators, since it must reduce in the kernel). -/
def charsPref : List Char → List Char → Bool
  | [], _ => true
  | _ :: _, [] => false
  | a :: as, b :: bs => a == b && charsPref as bs

/-- Boolean infix (contiguous-substring) test on character lists. -/
def charsInf (pat : List Char) : List Char → Bool
  | [] => charsPref pat []
  | c :: cs => charsPref pat (c :: cs) || charsInf pat cs

/-- Python's `pat in s` substring test. -/
def strContains (s pat : String) : Bool := charsInf pat.data s.data

/-- Suffix test on strings; used only to state the spec's
"ends with a .jpg suffix" reading of the Collector's link filter. -/
def strEndsWith (s suf : String) : Bool :=
  charsPref suf.data.reverse s.data.reverse

def lastSegAux (acc : List Char) : List Char → List Char
  | [] => acc.reverse
  | c :: cs => if c == '/' then lastSegAux [] cs else lastSegAux (c :: acc) cs

/-- Python's `s.split("/")[-1]`: for the single-character separator "/",
the last element of the split is exactly the text after the final "/"
(the whole string when "/" does not occur). -/
def lastSegment (s : String) : String := String.mk (lastSegAux [] s.data)

/-- Python's `s.zfill(width)`: left-pad with '0' up to `width`. -/
def zfill (width : Nat) (s : String) : String :=
  if width ≤ s.length then s
  else String.mk (List.replicate (width - s.length) '0') ++ s

/-- A DynamoDB item record: attribute name to string ("S") value.
The boto3 resource `put_item` writes plain strings and the client
`scan` returns them wrapped as `{"S": value}`; the wrapper is dropped
here because every attribute this program writes is a string, so the
final `["S"]` access in the Collector always succeeds once the
attribute itself is present. -/
abbrev Item := List (String × String)

namespace GetUrl

/-- Environment configuration of the get_url lambda.  In the source all
fields are strings and N_RETRY is parsed with `int(...)` at its single
use site; it is modelled here as the parsed Nat. -/
structure EnvironParams where
  LOG_LEVEL : String
  URL_QUEUE_URL : String
  IMG_QUEUE_URL : String
  PKEY : String
  URL_PARAM : String
  DB_NAME : String
  TOPICK_ARN : String
  nRetry : Nat
deriving DecidableEq, Repr

/-- JSON bodies the get_url lambda sends over SQS:
`{"index": n}` and `{"start": "get_url lambda"}`. -/
inductive Msg where
  | indexMsg (index : Nat)
  | startMsg (start : String)
deriving DecidableEq, Repr

/-- Observable side effects of one get_url invocation. -/
inductive Effect where
  | put (db pkey url : String)
  | publish (topic message subject : String)
  | send (queue : String) (msg : Msg)
deriving DecidableEq, Repr

/-- Uncaught Python exceptions of the modelled get_url paths. -/
inductive Err where
  | indexError
deriving DecidableEq, Repr

/-- Parsed SQS message body for the Enumerator: optional "index" and
optional "retry" integer fields (both read with .get and a default). -/
structure Body where
  index : Option Nat
  retry : Option Nat
deriving DecidableEq, Repr

/-- `index_urls` from get_url/lambda_function.py:
`[base_url] + [f"{base_url}page/{i}" for i in range(2, 191+1)]`. -/
def index_urls (base_url : String) : List String :=
  [base_url] ++ (List.range' 2 190).map (fun i => base_url ++ "page/" ++ toString i)

/-- The Item dict written by `DynamoDb.put`: `{pkey: url}`. -/
def put_item (pkey url : String) : Item := [(pkey, url)]

/-- `service` from get_url/lambda_function.py.  `ssmGet` models
`dp.ssm.get_paramater`, `archives` models `archives_urls` (network
fetch plus HTML link extraction).  Python's `urls[idx]` for a
non-negative index raises IndexError when `idx ≥ len(urls)`, modelled
by the `none` branch of list lookup. -/
def service (ssmGet : String → String) (archives : String → List String)
    (ep : EnvironParams) (body : Body) : Except Err (List Effect) :=
  let idx := body.index.getD 0
  let urls := index_urls (ssmGet ep.URL_PARAM)
  match urls[idx]? with
  | none => .error .indexError
  | some u =>
    let puts := (archives u).map (fun a => Effect.put ep.DB_NAME ep.PKEY a)
    let next_idx := idx + 1
    if next_idx > 191 then
      .ok (puts ++ [Effect.publish ep.TOPICK_ARN "処理が完了しました" "DB登録通知",
                    Effect.send ep.IMG_QUEUE_URL (Msg.startMsg "get_url lambda")])
    else
      .ok (puts ++ [Effect.send ep.URL_QUEUE_URL (Msg.indexMsg next_idx)])

/-- `control` from get_url/lambda_function.py: the retry guard around
`service`.  The general try/except is commented out in the source, so
an exception from `service` propagates. -/
def control (ssmGet : String → String) (archives : String → List String)
    (ep : EnvironParams) (body : Body) : Except Err (List Effect) :=
  if body.retry.getD 0 > ep.nRetry then .ok []
  else service ssmGet archives ep body

/-- `lambda_handler` from get_url/lambda_function.py: sequential loop
over the delivered records (bodies already JSON-parsed).  An exception
escaping `control` aborts the loop, leaving later records unprocessed;
on success the per-record effect lists are returned in order.  (The
inter-record sleep is not an observable modelled here.) -/
def lambda_handler (ssmGet : String → String) (archives : String → List String)
    (ep : EnvironParams) : List Body → Except Err (List (List Effect))
  | [] => .ok []
  | r :: rs =>
    match control ssmGet archives ep r with
    | .error e => .error e
    | .ok effs => (lambda_handler ssmGet archives ep rs).map (fun t => effs :: t)

end GetUrl

namespace SaveImg

/-- Environment configuration of the save_img lambda (N_RETRY modelled
as its parsed Nat, as in GetUrl.EnvironParams). -/
structure EnvironParams where
  LOG_LEVEL : String
  IMG_QUEUE_URL : String
  BUCKET_NAME : String
  DB_NAME : String
  TOPICK_ARN : String
  nRetry : Nat
deriving DecidableEq, Repr

/-- Python exceptions occurring in the modelled save_img paths.
`ssl` is ssl.SSLError — the only kind the per-image try/except catches;
`transport` stands for any other exception an external call may raise;
`scanContract` is the Exception raised by DynamoDb.scan on more than
one item; `keyError` models a missing "archive_url" attribute;
`typeError` is the TypeError raised inside the except-SSLError handler
itself: its `logger.exception()` call omits the required msg argument,
so entering the handler deterministically raises TypeError. -/
inductive Err where
  | ssl
  | transport
  | scanContract
  | keyError
  | typeError
deriving DecidableEq, Repr

/-- The raw response of the boto3 `client.scan` call: the items page
and the optional pagination key. -/
structure ScanResponse where
  Items : List Item
  LastEvaluatedKey : Option String
deriving DecidableEq, Repr

/-- `DynamoDb.scan` from save_img/lambda_function.py, applied to the
raw client response: raises when more than one item came back,
otherwise returns the response unchanged. -/
def DynamoDb.scan (raw : ScanResponse) : Except Err ScanResponse :=
  if raw.Items.length > 1 then .error .scanContract else .ok raw

/-- `ServiceParam` from save_img/lambda_function.py. -/
structure ServiceParam where
  archive_number : String
  archive_url : String
deriving DecidableEq, Repr

/-- `ServiceParam.of`: archive_number is `archive_url.split("/")[-1]`. -/
def ServiceParam.of (archive_url : String) : ServiceParam :=
  { archive_number := lastSegment archive_url, archive_url := archive_url }

/-- Observable side effects of one save_img invocation.  `saveImg`
records one call of the source's `save_img` function: the img_index
argument it was invoked with, the bucket, the computed S3 key and the
uploaded bytes. -/
inductive CEffect where
  | getPage (url : String)
  | saveImg (imgIndex : Nat) (bucket key data : String)
  | send (queue lastEvaluatedKey : String)
  | publish (topic message subject : String)
deriving DecidableEq, Repr

/-- The S3 key computed inside `save_img`:
`f"{sp.archive_number}_{str(img_index).zfill(3)}.png"`. -/
def save_key (sp : ServiceParam) (img_index : Nat) : String :=
  sp.archive_number ++ "_" ++ zfill 3 (toString img_index) ++ ".png"

/-- `save_img` from save_img/lambda_function.py, reified as the upload
effect it performs. -/
def save_img (img : String) (img_index : Nat) (ep : EnvironParams)
    (sp : ServiceParam) : CEffect :=
  CEffect.saveImg img_index ep.BUCKET_NAME (save_key sp img_index) img

/-- The link filter in `get_and_save_img`:
`("jpg" in img_url) and ("naver" not in img_url)`. -/
def img_filter (img_url : String) : Bool :=
  strContains img_url "jpg" && !(strContains img_url "naver")

/-- The body of the try block in `get_and_save_img`:
`save_img(img=get_img(img_url), ...)`.  `fetchImg` models `get_img`
(may raise), `uploadRes` models the S3 put_object outcome (may raise);
on success the save_img call is recorded as an effect. -/
def attempt (fetchImg : String → Except Err String)
    (uploadRes : String → String → Except Err Unit)
    (ep : EnvironParams) (sp : ServiceParam) (img_url : String)
    (index : Nat) : Except Err CEffect :=
  match fetchImg img_url with
  | .error e => .error e
  | .ok img =>
    match uploadRes (save_key sp index) img with
    | .error e => .error e
    | .ok _ => .ok (save_img img index ep sp)

/-- The `for obj in soup.find_all(class_="external")` loop of
`get_and_save_img`, over the extracted href list.  Qualifying links
run `attempt`.  On SSLError the `except SSLError` handler is entered,
but its first statement — `logger.exception()` with no msg argument —
raises TypeError, which nothing catches (the general try/except is
commented out), so the loop aborts with TypeError instead of skipping:
the skip-and-continue code after that call is unreachable.  Any other
exception from the attempt propagates as itself.  Non-qualifying links
are only logged and do not advance the index. -/
def get_and_save_img_loop (fetchImg : String → Except Err String)
    (uploadRes : String → String → Except Err Unit)
    (ep : EnvironParams) (sp : ServiceParam) :
    List String → Nat → Except Err (List CEffect)
  | [], _ => .ok []
  | img_url :: rest, index =>
    if img_filter img_url then
      match attempt fetchImg uploadRes ep sp img_url index with
      | .ok eff =>
        (get_and_save_img_loop fetchImg uploadRes ep sp rest (index + 1)).map
          (fun effs => eff :: effs)
      | .error .ssl => .error .typeError
      | .error e => .error e
    else
      get_and_save_img_loop fetchImg uploadRes ep sp rest index

/-- `get_and_save_img` from save_img/lambda_function.py.  `pageLinks`
models `requests.get` plus the soup "external"-class href extraction;
the page fetch itself is recorded as a `getPage` effect.  The loop
starts at `index = 0`. -/
def get_and_save_img (pageLinks : String → List String)
    (fetchImg : String → Except Err String)
    (uploadRes : String → String → Except Err Unit)
    (ep : EnvironParams) (sp : ServiceParam) : Except Err (List CEffect) :=
  (get_and_save_img_loop fetchImg uploadRes ep sp (pageLinks sp.archive_url) 0).map
    (fun effs => CEffect.getPage sp.archive_url :: effs)

/-- The Collector's URL extraction from a scanned record:
`item["archive_url"]["S"]`, KeyError when the attribute is absent. -/
def extract_url (item : Item) : Option String := item.lookup "archive_url"

/-- Parsed SQS message body for the Collector: optional
"LastEvaluatedKey" and optional "retry" fields. -/
structure Body where
  lastEvaluatedKey : Option String
  retry : Option Nat
deriving DecidableEq, Repr

/-- `control` from save_img/lambda_function.py.  `scanRaw` models the
raw boto3 scan response for a given exclusive-start key.  The two
conditionals after the scan are independent: the single-item check
runs `get_and_save_img`, and separately the presence of
LastEvaluatedKey decides between a continuation send and a completion
publish. -/
def control (scanRaw : Option String → ScanResponse)
    (pageLinks : String → List String)
    (fetchImg : String → Except Err String)
    (uploadRes : String → String → Except Err Unit)
    (ep : EnvironParams) (body : Body) : Except Err (List CEffect) :=
  match DynamoDb.scan (scanRaw body.lastEvaluatedKey) with
  | .error e => .error e
  | .ok response =>
    let imgStep : Except Err (List CEffect) :=
      if response.Items.length = 1 then
        match extract_url (response.Items.headD []) with
        | none => .error .keyError
        | some url =>
          get_and_save_img pageLinks fetchImg uploadRes ep (ServiceParam.of url)
      else .ok []
    match imgStep with
    | .error e => .error e
    | .ok imgEffs =>
      .ok (imgEffs ++
        (match response.LastEvaluatedKey with
         | some k => [CEffect.send ep.IMG_QUEUE_URL k]
         | none => [CEffect.publish ep.TOPICK_ARN "処理が完了しました" "処理完了通知"]))

/-- `control_loop` from save_img/lambda_function.py: the retry guard
around `control`; the general try/except is commented out, so an
exception from `control` propagates. -/
def control_loop (scanRaw : Option String → ScanResponse)
    (pageLinks : String → List String)
    (fetchImg : String → Except Err String)
    (uploadRes : String → String → Except Err Unit)
    (ep : EnvironParams) (body : Body) : Except Err (List CEffect) :=
  if body.retry.getD 0 > ep.nRetry then .ok []
  else control scanRaw pageLinks fetchImg uploadRes ep body

/-- `lambda_handler` from save_img/lambda_function.py: sequential loop
over the delivered records; an exception escaping `control_loop`
aborts the loop, leaving later records unprocessed. -/
def lambda_handler (scanRaw : Option String → ScanResponse)
    (pageLinks : String → List String)
    (fetchImg : String → Except Err String)
    (uploadRes : String → String → Except Err Unit)
    (ep : EnvironParams) : List Body → Except Err (List (List CEffect))
  | [] => .ok []
  | r :: rs =>
    match control_loop scanRaw pageLinks fetchImg uploadRes ep r with
    | .error e => .error e
    | .ok effs =>
      (lambda_handler scanRaw pageLinks fetchImg uploadRes ep rs).map
        (fun t => effs :: t)

end SaveImg

/-! Concrete fixtures used by the closed theorems and witnesses. -/

def ssm0 : String → String := fun _ => "https://ex.com/"

def arch0 : String → List String :=
  fun _ => ["https://ex.com/a/1", "https://ex.com/a/2"]

def epE0 : GetUrl.EnvironParams :=
  { LOG_LEVEL := "INFO", URL_QUEUE_URL := "URLQ", IMG_QUEUE_URL := "IMGQ",
    PKEY := "archive_url", URL_PARAM := "P", DB_NAME := "DB",
    TOPICK_ARN := "T", nRetry := 2 }

def epC0 : SaveImg.EnvironParams :=
  { LOG_LEVEL := "INFO", IMG_QUEUE_URL := "IMGQ", BUCKET_NAME := "B",
    DB_NAME := "DB", TOPICK_ARN := "T", nRetry := 2 }

def scan0 : Option String → SaveImg.ScanResponse :=
  fun _ => { Items := [[("archive_url", "https://ex.com/a/42")]],
             LastEvaluatedKey := some "K" }

def links0 : String → List String := fun _ => ["a.jpg"]

/-- A raw scan oracle returning two items, violating the Limit-1
contract the Collector asserts. -/
def scanBad : Option String → SaveImg.ScanResponse :=
  fun _ => { Items := [[("archive_url", "u1")], [("archive_url", "u2")]],
             LastEvaluatedKey := none }

def fetch0 : String → Except SaveImg.Err String := fun _ => .ok "IMG"

/-- Fetch oracle whose payload is the fetched URL itself, so that a
stored effect identifies the link it came from. -/
def fetchId : String → Except SaveImg.Err String := fun u => .ok u

def upload0 : String → String → Except SaveImg.Err Unit := fun _ _ => .ok ()

/-- Fetch oracle that fails with SSLError on "bad.jpg" and succeeds
elsewhere. -/
def fetchW : String → Except SaveImg.Err String :=
  fun u => if u == "bad.jpg" then .error .ssl else .ok u

/-- Page-link oracle exposing one SSL-failing link before a good one. -/
def linksW : String → List String := fun _ => ["bad.jpg", "ok.jpg"]

/-! Helper lemmas. -/

theorem GetUrl.service_ok_ne_nil (ssmGet : String → String)
    (archives : String → List String) (ep : GetUrl.EnvironParams)
    (body : GetUrl.Body) (effs : List GetUrl.Effect)
    (h : GetUrl.service ssmGet archives ep body = .ok effs) : effs ≠ [] := by
  simp only [GetUrl.service] at h
  split at h
  · exact absurd h (by simp)
  · split at h
    · injection h with h'
      intro hnil
      rw [hnil] at h'
      simp [List.append_eq_nil] at h'
    · injection h with h'
      intro hnil
      rw [hnil] at h'
      simp [List.append_eq_nil] at h'

theorem SaveImg.scan_spec_le (raw : SaveImg.ScanResponse)
    (h : raw.Items.length ≤ 1) : SaveImg.DynamoDb.scan raw = .ok raw := by
  simp [SaveImg.DynamoDb.scan, Nat.not_lt.mpr h]

theorem SaveImg.scan_spec_gt (raw : SaveImg.ScanResponse)
    (h : raw.Items.length > 1) :
    SaveImg.DynamoDb.scan raw = .error .scanContract := by
  simp [SaveImg.DynamoDb.scan, h]

theorem SaveImg.control_ok_ne_nil (scanRaw : Option String → SaveImg.ScanResponse)
    (pageLinks : String → List String)
    (fetchImg : String → Except SaveImg.Err String)
    (uploadRes : String → String → Except SaveImg.Err Unit)
    (ep : SaveImg.EnvironParams) (body : SaveImg.Body)
    (effs : List SaveImg.CEffect)
    (h : SaveImg.control scanRaw pageLinks fetchImg uploadRes ep body = .ok effs) :
    effs ≠ [] := by
  simp only [SaveImg.control] at h
  split at h
  · exact absurd h (by simp)
  · split at h
    · exact absurd h (by simp)
    · injection h with h'
      intro hnil
      rw [hnil] at h'
      rcases List.append_eq_nil.mp h' with ⟨-, htail⟩
      revert htail
      split <;> simp

/-- C3: in both stages, the per-message entry point drops the message
(runs no stage logic and emits no effect) exactly when the body's
retry counter, defaulting to 0 when absent, exceeds the configured
retry budget; and an absent retry field behaves exactly like retry 0. -/
theorem c3_retry_guard (ssmGet : String → String)
    (archives : String → List String)
    (scanRaw : Option String → SaveImg.ScanResponse)
    (pageLinks : String → List String)
    (fetchImg : String → Except SaveImg.Err String)
    (uploadRes : String → String → Except SaveImg.Err Unit)
    (ep₁ : GetUrl.EnvironParams) (ep₂ : SaveImg.EnvironParams)
    (b₁ : GetUrl.Body) (b₂ : SaveImg.Body) :
    (GetUrl.control ssmGet archives ep₁ b₁ = .ok [] ↔
       b₁.retry.getD 0 > ep₁.nRetry) ∧
    (SaveImg.control_loop scanRaw pageLinks fetchImg uploadRes ep₂ b₂ = .ok [] ↔
       b₂.retry.getD 0 > ep₂.nRetry) ∧
    GetUrl.control ssmGet archives ep₁ { index := b₁.index, retry := none } =
      GetUrl.control ssmGet archives ep₁ { index := b₁.index, retry := some 0 } ∧
    SaveImg.control_loop scanRaw pageLinks fetchImg uploadRes ep₂
        { lastEvaluatedKey := b₂.lastEvaluatedKey, retry := none } =
      SaveImg.control_loop scanRaw pageLinks fetchImg uploadRes ep₂
        { lastEvaluatedKey := b₂.lastEvaluatedKey, retry := some 0 } := by
  refine ⟨?_, ?_, rfl, rfl⟩
  · constructor
    · intro h
      by_contra hnot
      rw [GetUrl.control, if_neg hnot] at h
      exact GetUrl.service_ok_ne_nil ssmGet archives ep₁ b₁ [] h rfl
    · intro h
      rw [GetUrl.control, if_pos h]
  · constructor
    · intro h
      by_contra hnot
      rw [SaveImg.control_loop, if_neg hnot] at h
      exact SaveImg.control_ok_ne_nil scanRaw pageLinks fetchImg uploadRes
        ep₂ b₂ [] h rfl
    · intro h
      rw [SaveImg.control_loop, if_pos h]

/-- C9: the Collector's scan wrapper raises exactly when the raw table
scan returned more than one item, and otherwise returns the response
unchanged. -/
theorem c9_scan_contract (raw : SaveImg.ScanResponse) :
    (SaveImg.DynamoDb.scan raw = .ok raw ↔ raw.Items.length ≤ 1) ∧
    ((∃ e, SaveImg.DynamoDb.scan raw = .error e) ↔ raw.Items.length > 1) := by
  by_cases h : raw.Items.length > 1
  · constructor
    · constructor
      · intro hok
        rw [SaveImg.scan_spec_gt raw h] at hok
        exact absurd hok (by simp)
      · intro hle
        exact absurd h (Nat.not_lt.mpr hle)
    · exact ⟨fun _ => h, fun _ => ⟨_, SaveImg.scan_spec_gt raw h⟩⟩
  · have hle : raw.Items.length ≤ 1 := Nat.not_lt.mp h
    constructor
    · exact ⟨fun _ => hle, fun _ => SaveImg.scan_spec_le raw hle⟩
    · constructor
      · rintro ⟨e, he⟩
        rw [SaveImg.scan_spec_le raw hle] at he
        exact absurd he (by simp)
      · intro hgt
        exact absurd hgt h

/-- C10: the Enumerator writes records consisting of exactly one
attribute, the configured partition-key name mapped to the item URL,
and the Collector's extraction of the literally named "archive_url"
attribute succeeds on such a record if and only if the configured
partition-key name is "archive_url" (in which case it yields the URL). -/
theorem c10_pkey_contract (pkey url : String) :
    (GetUrl.put_item pkey url).length = 1 ∧
    ((SaveImg.extract_url (GetUrl.put_item pkey url)).isSome ↔
       pkey = "archive_url") ∧
    (pkey = "archive_url" →
       SaveImg.extract_url (GetUrl.put_item pkey url) = some url) := by
  refine ⟨rfl, ?_, ?_⟩
  · by_cases h : pkey = "archive_url"
    · subst h
      simp [SaveImg.extract_url, GetUrl.put_item, List.lookup]
    · have hne : ("archive_url" == pkey) = false := by
        simp [Ne.symm h]
      simp [SaveImg.extract_url, GetUrl.put_item, List.lookup, hne, h]
  · intro h
    subst h
    simp [SaveImg.extract_url, GetUrl.put_item, List.lookup]

/-- The payloads of the saveImg effects in a Collector effect list, in
order; with the identity fetch oracle these are the stored links. -/
def storedData (effs : List SaveImg.CEffect) : List String :=
  effs.filterMap (fun e =>
    match e with
    | SaveImg.CEffect.saveImg _ _ _ d => some d
    | _ => none)

theorem SaveImg.loop_storedData (ep : SaveImg.EnvironParams)
    (sp : SaveImg.ServiceParam) :
    ∀ (links : List String) (start : Nat),
      (SaveImg.get_and_save_img_loop fetchId upload0 ep sp links start).map
          storedData =
        .ok (links.filter SaveImg.img_filter) := by
  intro links
  induction links with
  | nil => intro start; rfl
  | cons u rest ih =>
    intro start
    by_cases hf : SaveImg.img_filter u
    · have hstep : SaveImg.get_and_save_img_loop fetchId upload0 ep sp (u :: rest) start =
          (SaveImg.get_and_save_img_loop fetchId upload0 ep sp rest (start + 1)).map
            (fun effs => SaveImg.save_img u start ep sp :: effs) := by
        simp [SaveImg.get_and_save_img_loop, hf, SaveImg.attempt, fetchId, upload0]
      rw [hstep]
      have h2 := ih (start + 1)
      cases hl : SaveImg.get_and_save_img_loop fetchId upload0 ep sp rest (start + 1) with
      | error e => rw [hl] at h2; exact absurd h2 (by simp [Except.map])
      | ok effs' =>
        rw [hl] at h2
        simp only [Except.map] at h2 ⊢
        injection h2 with h2'
        simpa [storedData, SaveImg.save_img, List.filter_cons, hf] using h2'
    · have hstep : SaveImg.get_and_save_img_loop fetchId upload0 ep sp (u :: rest) start =
          SaveImg.get_and_save_img_loop fetchId upload0 ep sp rest start := by
        simp [SaveImg.get_and_save_img_loop, hf]
      rw [hstep]
      rw [List.filter_cons_of_neg (by simpa using hf)]
      exact ih start

theorem SaveImg.attempt_ok_shape (fetchImg : String → Except SaveImg.Err String)
    (uploadRes : String → String → Except SaveImg.Err Unit)
    (ep : SaveImg.EnvironParams) (sp : SaveImg.ServiceParam) (u : String)
    (idx : Nat) (eff : SaveImg.CEffect)
    (h : SaveImg.attempt fetchImg uploadRes ep sp u idx = .ok eff) :
    ∃ b k d, eff = SaveImg.CEffect.saveImg idx b k d := by
  simp only [SaveImg.attempt] at h
  split at h
  · exact absurd h (by simp)
  · split at h
    · exact absurd h (by simp)
    · injection h with h'
      exact ⟨_, _, _, h'.symm⟩

/-- Every effect an ok run of the image loop emits is a saveImg call
whose index is at least the loop's starting index. -/
theorem SaveImg.loop_mem_shape (fetchImg : String → Except SaveImg.Err String)
    (uploadRes : String → String → Except SaveImg.Err Unit)
    (ep : SaveImg.EnvironParams) (sp : SaveImg.ServiceParam) :
    ∀ (links : List String) (start : Nat) (effs : List SaveImg.CEffect),
      SaveImg.get_and_save_img_loop fetchImg uploadRes ep sp links start = .ok effs →
      ∀ e ∈ effs, ∃ i b k d, e = SaveImg.CEffect.saveImg i b k d ∧ start ≤ i := by
  intro links
  induction links with
  | nil =>
    intro start effs h e he
    simp only [SaveImg.get_and_save_img_loop] at h
    injection h with h'
    rw [← h'] at he
    simp at he
  | cons u rest ih =>
    intro start effs h e he
    simp only [SaveImg.get_and_save_img_loop] at h
    split at h
    · split at h
      · rename_i eff heq
        cases hl : SaveImg.get_and_save_img_loop fetchImg uploadRes ep sp rest (start + 1) with
        | error e' => rw [hl] at h; exact absurd h (by simp [Except.map])
        | ok effs' =>
          rw [hl] at h
          simp only [Except.map] at h
          injection h with h'
          rw [← h'] at he
          rcases List.mem_cons.mp he with he1 | he2
          · rcases SaveImg.attempt_ok_shape fetchImg uploadRes ep sp u start eff heq with
              ⟨b, k, d, hbkd⟩
            exact ⟨start, b, k, d, he1.trans hbkd, Nat.le_refl start⟩
          · rcases ih (start + 1) effs' hl e he2 with ⟨i, b, k, d, hshape, hle⟩
            exact ⟨i, b, k, d, hshape, by omega⟩
      · exact absurd h (by simp)
      · exact absurd h (by simp)
    · exact ih start effs h e he

/-- C8: the claimed skip-and-continue recovery does not exist.  For a
qualifying link whose download/store attempt raises the caught failure
kind (SSLError), the except-SSLError handler is entered but its
zero-argument logger.exception() call raises TypeError, which
propagates: the link is not skipped, the remaining links are never
visited, the index does not advance, and the loop — hence the
invocation — fails with TypeError. -/
theorem c8_ssl_typeerror (fetchImg : String → Except SaveImg.Err String)
    (uploadRes : String → String → Except SaveImg.Err Unit)
    (ep : SaveImg.EnvironParams) (sp : SaveImg.ServiceParam) (u : String)
    (rest : List String) (idx : Nat)
    (hq : SaveImg.img_filter u = true)
    (hssl : SaveImg.attempt fetchImg uploadRes ep sp u idx = .error .ssl) :
    SaveImg.get_and_save_img_loop fetchImg uploadRes ep sp (u :: rest) idx =
      .error .typeError := by
  simp [SaveImg.get_and_save_img_loop, hq, hssl]

/-- Witness for c8_ssl_typeerror: fetching "bad.jpg" fails with
SSLError, the loop dies with TypeError instead of continuing to
"ok.jpg", and the whole Collector invocation fails with TypeError. -/
theorem c8_ssl_typeerror_witness :
    SaveImg.get_and_save_img_loop fetchW upload0 epC0
        (SaveImg.ServiceParam.of "https://ex.com/a/42") ["bad.jpg", "ok.jpg"] 0 =
      .error .typeError ∧
    SaveImg.lambda_handler scan0 linksW fetchW upload0 epC0
        [{ lastEvaluatedKey := none, retry := none }] = .error .typeError := by
  constructor
  · exact c8_ssl_typeerror fetchW upload0 epC0
      (SaveImg.ServiceParam.of "https://ex.com/a/42") "bad.jpg" ["ok.jpg"] 0
      (by decide) rfl
  · rfl

/-- C5: in an ok Collector run the item-processing check and the
continuation check are independent, not mutually exclusive: the item
page is fetched (a getPage effect occurs) iff the scan response has
exactly one item, and — regardless of that — a continuation
{"LastEvaluatedKey": k} is sent to the Collector's own queue iff the
response carries continuation key k, with the completion notification
published exactly when it carries none. -/
theorem c5_collector_independent
    (scanRaw : Option String → SaveImg.ScanResponse)
    (pageLinks : String → List String)
    (fetchImg : String → Except SaveImg.Err String)
    (uploadRes : String → String → Except SaveImg.Err Unit)
    (ep : SaveImg.EnvironParams) (body : SaveImg.Body)
    (effs : List SaveImg.CEffect)
    (h : SaveImg.control scanRaw pageLinks fetchImg uploadRes ep body = .ok effs) :
    ((∃ u, SaveImg.CEffect.getPage u ∈ effs) ↔
       (scanRaw body.lastEvaluatedKey).Items.length = 1) ∧
    (∀ k, SaveImg.CEffect.send ep.IMG_QUEUE_URL k ∈ effs ↔
       (scanRaw body.lastEvaluatedKey).LastEvaluatedKey = some k) ∧
    ((∃ t m s, SaveImg.CEffect.publish t m s ∈ effs) ↔
       (scanRaw body.lastEvaluatedKey).LastEvaluatedKey = none) := by
  simp only [SaveImg.control] at h
  split at h
  · exact absurd h (by simp)
  · rename_i response hscan
    have hresp : response = scanRaw body.lastEvaluatedKey := by
      simp only [SaveImg.DynamoDb.scan] at hscan
      split at hscan
      · exact absurd hscan (by simp)
      · injection hscan with h'
        exact h'.symm
    subst hresp
    split at h
    · exact absurd h (by simp)
    · rename_i imgEffs himg
      injection h with h'
      subst h'
      by_cases hone : (scanRaw body.lastEvaluatedKey).Items.length = 1
      · rw [if_pos hone] at himg
        split at himg
        · exact absurd himg (by simp)
        · rename_i url hurl
          simp only [SaveImg.get_and_save_img] at himg
          cases hl : SaveImg.get_and_save_img_loop fetchImg uploadRes ep
              (SaveImg.ServiceParam.of url)
              (pageLinks (SaveImg.ServiceParam.of url).archive_url) 0 with
          | error e => rw [hl] at himg; exact absurd himg (by simp [Except.map])
          | ok loopEffs =>
            rw [hl] at himg
            simp only [Except.map] at himg
            injection himg with himg'
            subst himg'
            have hshape := SaveImg.loop_mem_shape fetchImg uploadRes ep
              (SaveImg.ServiceParam.of url) _ _ _ hl
            have hnosend : ∀ q kk, SaveImg.CEffect.send q kk ∉ loopEffs := by
              intro q kk hm
              rcases hshape _ hm with ⟨i, b, kk', d, hsh, -⟩
              exact absurd hsh (by simp)
            have hnopub : ∀ t m s, SaveImg.CEffect.publish t m s ∉ loopEffs := by
              intro t m s hm
              rcases hshape _ hm with ⟨i, b, kk', d, hsh, -⟩
              exact absurd hsh (by simp)
            cases hkey : (scanRaw body.lastEvaluatedKey).LastEvaluatedKey with
            | some k0 =>
              refine ⟨⟨fun _ => hone, fun _ =>
                ⟨(SaveImg.ServiceParam.of url).archive_url, by simp⟩⟩, ?_, ?_⟩
              · intro k
                constructor
                · intro hm
                  simp only [List.cons_append, List.mem_cons, List.mem_append,
                    List.mem_singleton] at hm
                  rcases hm with hm | hm | hm | hm
                  · exact absurd hm (by simp)
                  · exact absurd hm (hnosend _ _)
                  · injection hm with hq hk
                    rw [hk]
                  · exact absurd hm (by simp)
                · intro hk
                  injection hk with hk
                  simp [hk]
              · constructor
                · rintro ⟨t, m, s, hm⟩
                  simp only [List.cons_append, List.mem_cons, List.mem_append,
                    List.mem_singleton] at hm
                  rcases hm with hm | hm | hm | hm
                  · exact absurd hm (by simp)
                  · exact absurd hm (hnopub _ _ _)
                  · exact absurd hm (by simp)
                  · exact absurd hm (by simp)
                · intro hk
                  exact absurd hk (by simp)
            | none =>
              refine ⟨⟨fun _ => hone, fun _ =>
                ⟨(SaveImg.ServiceParam.of url).archive_url, by simp⟩⟩, ?_, ?_⟩
              · intro k
                constructor
                · intro hm
                  simp only [List.cons_append, List.mem_cons, List.mem_append,
                    List.mem_singleton] at hm
                  rcases hm with hm | hm | hm | hm
                  · exact absurd hm (by simp)
                  · exact absurd hm (hnosend _ _)
                  · exact absurd hm (by simp)
                  · exact absurd hm (by simp)
                · intro hk
                  exact absurd hk (by simp)
              · exact ⟨fun _ => rfl, fun _ =>
                  ⟨ep.TOPICK_ARN, "処理が完了しました", "処理完了通知", by simp⟩⟩
      · rw [if_neg hone] at himg
        injection himg with himg'
        subst himg'
        cases hkey : (scanRaw body.lastEvaluatedKey).LastEvaluatedKey with
        | some k0 =>
          refine ⟨⟨?_, fun hc => absurd hc hone⟩, ?_, ?_⟩
          · rintro ⟨u, hm⟩
            simp only [List.nil_append, List.mem_singleton] at hm
            exact absurd hm (by simp)
          · intro k
            constructor
            · intro hm
              simp only [List.nil_append, List.mem_singleton] at hm
              injection hm with hq hk
              rw [hk]
            · intro hk
              injection hk with hk
              simp [hk]
          · constructor
            · rintro ⟨t, m, s, hm⟩
              simp only [List.nil_append, List.mem_singleton] at hm
              exact absurd hm (by simp)
            · intro hk
              exact absurd hk (by simp)
        | none =>
          refine ⟨⟨?_, fun hc => absurd hc hone⟩, ?_, ?_⟩
          · rintro ⟨u, hm⟩
            simp only [List.nil_append, List.mem_singleton] at hm
            exact absurd hm (by simp)
          · intro k
            constructor
            · intro hm
              simp only [List.nil_append, List.mem_singleton] at hm
              exact absurd hm (by simp)
            · intro hk
              exact absurd hk (by simp)
          · exact ⟨fun _ => rfl, fun _ =>
              ⟨ep.TOPICK_ARN, "処理が完了しました", "処理完了通知", by simp⟩⟩

/-- Witness for c5_collector_independent: a response with one item AND
a continuation key makes both checks fire — the page is fetched and a
continuation is sent in the same run. -/
theorem c5_collector_independent_witness :
    (∃ u, SaveImg.CEffect.getPage u ∈
       [SaveImg.CEffect.getPage "https://ex.com/a/42",
        SaveImg.CEffect.saveImg 0 "B" "42_000.png" "IMG",
        SaveImg.CEffect.send "IMGQ" "K"]) ∧
    SaveImg.CEffect.send "IMGQ" "K" ∈
      [SaveImg.CEffect.getPage "https://ex.com/a/42",
       SaveImg.CEffect.saveImg 0 "B" "42_000.png" "IMG",
       SaveImg.CEffect.send "IMGQ" "K"] := by
  have h := c5_collector_independent scan0 links0 fetch0 upload0 epC0
    { lastEvaluatedKey := none, retry := none }
    [SaveImg.CEffect.getPage "https://ex.com/a/42",
     SaveImg.CEffect.saveImg 0 "B" "42_000.png" "IMG",
     SaveImg.CEffect.send "IMGQ" "K"] rfl
  exact ⟨h.1.mpr rfl, (h.2.1 "K").mpr rfl⟩

/-- C6 counterexample: a link that does not end with a ".jpg"-like
suffix (it merely contains "jpg" in the middle) IS downloaded and
stored by the Collector, so the filter is substring containment, not a
suffix test. -/
theorem c6_counterexample :
    SaveImg.get_and_save_img_loop fetchId upload0 epC0
        (SaveImg.ServiceParam.of "https://ex.com/a/42")
        ["https://ex.com/im.jpgdir/p.png"] 0 =
      .ok [SaveImg.CEffect.saveImg 0 "B" "42_000.png"
             "https://ex.com/im.jpgdir/p.png"] ∧
    strEndsWith "https://ex.com/im.jpgdir/p.png" ".jpg" = false ∧
    strEndsWith "https://ex.com/im.jpgdir/p.png" "jpg" = false :=
  ⟨rfl, rfl, rfl⟩

/-- C6 amended: with all downloads succeeding, the Collector stores
exactly those "external"-flagged links whose target CONTAINS the
substring "jpg" and does not contain "naver", in the order
encountered; on the claim's example mix exactly foo.jpg and qux.jpg
are stored, in that order, at sequence indices 0 and 1. -/
theorem c6_link_filter :
    (∀ (ep : SaveImg.EnvironParams) (sp : SaveImg.ServiceParam)
       (links : List String) (start : Nat),
       (SaveImg.get_and_save_img_loop fetchId upload0 ep sp links start).map
           storedData =
         .ok (links.filter SaveImg.img_filter)) ∧
    SaveImg.get_and_save_img_loop fetchId upload0 epC0
        (SaveImg.ServiceParam.of "https://ex.com/a/42")
        ["foo.jpg", "bar.naver.jpg", "baz.png", "qux.jpg"] 0 =
      .ok [SaveImg.CEffect.saveImg 0 "B" "42_000.png" "foo.jpg",
           SaveImg.CEffect.saveImg 1 "B" "42_001.png" "qux.jpg"] :=
  ⟨fun ep sp => SaveImg.loop_storedData ep sp, rfl⟩

/-- C7 counterexample: the stored key carries a ".png" extension the
claim omits — for archive URL ".../archives/42" and index 0 the key is
"42_000.png", not "42_000". -/
theorem c7_counterexample :
    SaveImg.save_key (SaveImg.ServiceParam.of "https://ex.com/archives/42") 0 =
      "42_000.png" ∧
    SaveImg.attempt fetch0 upload0 epC0
        (SaveImg.ServiceParam.of "https://ex.com/archives/42") "x.jpg" 0 =
      .ok (SaveImg.CEffect.saveImg 0 "B" "42_000.png" "IMG") ∧
    "42_000.png" ≠ "42_000" :=
  ⟨rfl, rfl, by decide⟩

/-- C7 amended: every successful per-link save stores under the key
archive_number ++ "_" ++ zero-padded-3-digit index ++ ".png", where
archive_number is the last path segment of the item's archive URL. -/
theorem c7_storage_key (fetchImg : String → Except SaveImg.Err String)
    (uploadRes : String → String → Except SaveImg.Err Unit)
    (ep : SaveImg.EnvironParams) (url img_url img : String) (idx : Nat)
    (hf : fetchImg img_url = .ok img)
    (hu : ∀ k d, uploadRes k d = .ok ()) :
    SaveImg.attempt fetchImg uploadRes ep (SaveImg.ServiceParam.of url) img_url idx =
      .ok (SaveImg.CEffect.saveImg idx ep.BUCKET_NAME
        (lastSegment url ++ "_" ++ zfill 3 (toString idx) ++ ".png") img) := by
  simp [SaveImg.attempt, hf, hu, SaveImg.save_img, SaveImg.save_key,
    SaveImg.ServiceParam.of]

/-- Witness for c7_storage_key: archive URL ".../archives/42", index 7
stores under "42_007.png". -/
theorem c7_storage_key_witness :
    SaveImg.attempt fetch0 upload0 epC0
        (SaveImg.ServiceParam.of "https://ex.com/archives/42") "x.jpg" 7 =
      .ok (SaveImg.CEffect.saveImg 7 "B" "42_007.png" "IMG") :=
  c7_storage_key fetch0 upload0 epC0 "https://ex.com/archives/42" "x.jpg" "IMG" 7
    rfl (fun _ _ => rfl)

/-- C2: the generated index-URL sequence has exactly 191 entries, the
base URL at position 0 and base ++ "page/i" (i = j+1, for the 1-indexed
page list) at positions j = 1..190; but position 191 — reachable by the
Enumerator's own continuation bound next_idx > 191 — has no entry, so
one step at page_index 191 raises IndexError instead of computing a
URL. -/
theorem c2_index_url_sequence (base_url : String) :
    (GetUrl.index_urls base_url).length = 191 ∧
    (GetUrl.index_urls base_url)[0]? = some base_url ∧
    (∀ j, 1 ≤ j → j ≤ 190 →
       (GetUrl.index_urls base_url)[j]? =
         some (base_url ++ "page/" ++ toString (j + 1))) ∧
    (GetUrl.index_urls base_url)[191]? = none := by
  have hlen : (GetUrl.index_urls base_url).length = 191 := by
    simp [GetUrl.index_urls]
  refine ⟨hlen, rfl, ?_, List.getElem?_eq_none hlen.le⟩
  intro j h1 h190
  obtain ⟨j', rfl⟩ : ∃ j', j = j' + 1 := ⟨j - 1, by omega⟩
  have hj' : j' < 190 := by omega
  simp only [GetUrl.index_urls, List.singleton_append, List.getElem?_cons_succ,
    List.getElem?_map, List.getElem?_range' _ _ hj', Option.map_some']
  have : 2 + 1 * j' = j' + 1 + 1 := by omega
  rw [this]

/-- Witness for c2_index_url_sequence at base "https://ex.com/" and
position 5 (holding the sixth index URL, page 6). -/
theorem c2_index_url_sequence_witness :
    (GetUrl.index_urls "https://ex.com/").length = 191 ∧
    (GetUrl.index_urls "https://ex.com/")[5]? =
      some ("https://ex.com/" ++ "page/" ++ toString (5 + 1)) ∧
    (GetUrl.index_urls "https://ex.com/")[191]? = none :=
  ⟨(c2_index_url_sequence "https://ex.com/").1,
   (c2_index_url_sequence "https://ex.com/").2.2.1 5 (by decide) (by decide),
   (c2_index_url_sequence "https://ex.com/").2.2.2⟩

/-- C1: the Enumerator branch behavior at the boundary.  At index 190
(next_index 191) it sends one further continuation {"index": 191}; but
a message carrying index 191 (next_index 192) raises IndexError while
indexing the 191-entry URL list, before persisting or publishing
anything, so the completion-publish plus Collector start-signal branch
guarded by next_index > 191 never executes. -/
theorem c1_completion_unreachable :
    GetUrl.service ssm0 arch0 epE0 { index := some 190, retry := none } =
      .ok [GetUrl.Effect.put "DB" "archive_url" "https://ex.com/a/1",
           GetUrl.Effect.put "DB" "archive_url" "https://ex.com/a/2",
           GetUrl.Effect.send "URLQ" (GetUrl.Msg.indexMsg 191)] ∧
    GetUrl.service ssm0 arch0 epE0 { index := some 191, retry := none } =
      .error .indexError :=
  ⟨rfl, rfl⟩

/-- C4 counterexample: a batch whose first message fails (index 191
raises IndexError) aborts the whole invocation, so the second message
— which processed alone succeeds — is never processed: per-message
errors are NOT caught at the per-message boundary. -/
theorem c4_counterexample :
    GetUrl.lambda_handler ssm0 arch0 epE0
        [{ index := some 191, retry := none }, { index := some 0, retry := none }] =
      .error .indexError ∧
    GetUrl.lambda_handler ssm0 arch0 epE0 [{ index := some 0, retry := none }] =
      .ok [[GetUrl.Effect.put "DB" "archive_url" "https://ex.com/a/1",
            GetUrl.Effect.put "DB" "archive_url" "https://ex.com/a/2",
            GetUrl.Effect.send "URLQ" (GetUrl.Msg.indexMsg 1)]] :=
  ⟨rfl, rfl⟩

/-- C4 amended: in both stages only the retry-budget rejection is
confined to its message (it contributes an empty effect list and later
messages still process); an error raised while processing a message
propagates out of the handler loop and aborts the remaining messages
of the batch, since the general per-message catch is commented out. -/
theorem c4_batch_propagation (ssmGet : String → String)
    (archives : String → List String) (ep₁ : GetUrl.EnvironParams)
    (r₁ : GetUrl.Body) (rs₁ : List GetUrl.Body)
    (scanRaw : Option String → SaveImg.ScanResponse)
    (pageLinks : String → List String)
    (fetchImg : String → Except SaveImg.Err String)
    (uploadRes : String → String → Except SaveImg.Err Unit)
    (ep₂ : SaveImg.EnvironParams) (r₂ : SaveImg.Body) (rs₂ : List SaveImg.Body) :
    (r₁.retry.getD 0 > ep₁.nRetry →
       GetUrl.lambda_handler ssmGet archives ep₁ (r₁ :: rs₁) =
         (GetUrl.lambda_handler ssmGet archives ep₁ rs₁).map (fun t => [] :: t)) ∧
    (∀ e, GetUrl.control ssmGet archives ep₁ r₁ = .error e →
       GetUrl.lambda_handler ssmGet archives ep₁ (r₁ :: rs₁) = .error e) ∧
    (r₂.retry.getD 0 > ep₂.nRetry →
       SaveImg.lambda_handler scanRaw pageLinks fetchImg uploadRes ep₂ (r₂ :: rs₂) =
         (SaveImg.lambda_handler scanRaw pageLinks fetchImg uploadRes ep₂ rs₂).map
           (fun t => [] :: t)) ∧
    (∀ e, SaveImg.control_loop scanRaw pageLinks fetchImg uploadRes ep₂ r₂ = .error e →
       SaveImg.lambda_handler scanRaw pageLinks fetchImg uploadRes ep₂ (r₂ :: rs₂) =
         .error e) := by
  refine ⟨?_, ?_, ?_, ?_⟩
  · intro h
    have hctl : GetUrl.control ssmGet archives ep₁ r₁ = .ok [] := by
      simp [GetUrl.control, h]
    simp [GetUrl.lambda_handler, hctl]
  · intro e he
    simp [GetUrl.lambda_handler, he]
  · intro h
    have hctl : SaveImg.control_loop scanRaw pageLinks fetchImg uploadRes ep₂ r₂ =
        .ok [] := by
      simp [SaveImg.control_loop, h]
    simp [SaveImg.lambda_handler, hctl]
  · intro e he
    simp [SaveImg.lambda_handler, he]

/-- Witness for c4_batch_propagation: a retry-over message yields an
empty effect list and the batch goes on; a crashing first message
aborts the batch in both stages. -/
theorem c4_batch_propagation_witness :
    GetUrl.lambda_handler ssm0 arch0 epE0 [{ index := some 0, retry := some 5 }] =
      .ok [[]] ∧
    GetUrl.lambda_handler ssm0 arch0 epE0
        [{ index := some 191, retry := none }, { index := some 0, retry := none }] =
      .error .indexError ∧
    SaveImg.lambda_handler scan0 links0 fetch0 upload0 epC0
        [{ lastEvaluatedKey := none, retry := some 9 }] = .ok [[]] ∧
    SaveImg.lambda_handler scanBad links0 fetch0 upload0 epC0
        [{ lastEvaluatedKey := none, retry := none },
         { lastEvaluatedKey := none, retry := none }] = .error .scanContract := by
  refine ⟨?_, ?_, ?_, ?_⟩
  · have h := (c4_batch_propagation ssm0 arch0 epE0
      { index := some 0, retry := some 5 } [] scan0 links0 fetch0 upload0 epC0
      { lastEvaluatedKey := none, retry := some 9 } []).1 (by decide)
    simpa using h
  · exact (c4_batch_propagation ssm0 arch0 epE0
      { index := some 191, retry := none } [{ index := some 0, retry := none }]
      scan0 links0 fetch0 upload0 epC0
      { lastEvaluatedKey := none, retry := none } []).2.1 .indexError rfl
  · have h := (c4_batch_propagation ssm0 arch0 epE0
      { index := some 0, retry := none } [] scan0 links0 fetch0 upload0 epC0
      { lastEvaluatedKey := none, retry := some 9 } []).2.2.1 (by decide)
    simpa using h
  · exact (c4_batch_propagation ssm0 arch0 epE0
      { index := some 0, retry := none } [] scanBad links0 fetch0 upload0 epC0
      { lastEvaluatedKey := none, retry := none }
      [{ lastEvaluatedKey := none, retry := none }]).2.2.2 .scanContract rfl

/-- Witness for c10_pkey_contract at the configured name
"archive_url": extraction succeeds and yields the stored URL. -/
theorem c10_pkey_contract_witness :
    (GetUrl.put_item "archive_url" "https://ex.com/a/1").length = 1 ∧
    SaveImg.extract_url (GetUrl.put_item "archive_url" "https://ex.com/a/1") =
      some "https://ex.com/a/1" :=
  ⟨(c10_pkey_contract "archive_url" "https://ex.com/a/1").1,
   (c10_pkey_contract "archive_url" "https://ex.com/a/1").2.2 rfl⟩
